import Mathlib

/-!
Shallow embedding of src/script.js (client-side portfolio page logic).

Numbers are modelled as rationals. The embedded pieces are:
CONFIG constants, utils.lerp, the custom-cursor closure state together
with handleMouseMove and updateCursor, the particle system of
initializeParticles (per-frame step, pairwise connection drawing),
toggleTheme with its persistence slot, validateField with the email
regular expression, and the guard logic of initializeCursor,
initializeParticles and createParticleCanvas.
-/

/-- CONFIG.cursor.followSpeed = 0.15. -/
def followSpeed : ℚ := 15 / 100

/-- CONFIG.particles.count = 50. -/
def particleCount : ℕ := 50

/-- The fixed connection distance (100 logical pixels) used in the
particle animation loop. -/
def connectionDistance : ℚ := 100

/-- utils.lerp: start + (end - start) * factor. -/
def lerp (start stop factor : ℚ) : ℚ :=
  start + (stop - start) * factor

/-- State of the custom-cursor subsystem.  currentX, currentY, targetX,
targetY are the closure-local variables of initializeCursor.
elemTargetX and elemTargetY model the expando properties named targetX
and targetY that handleMouseMove assigns onto the DOM element returned
by document.querySelector; they are distinct storage from the closure
variables.  mouseX and mouseY model STATE.mousePosition. -/
structure CursorState where
  currentX : ℚ
  currentY : ℚ
  targetX : ℚ
  targetY : ℚ
  elemTargetX : Option ℚ
  elemTargetY : Option ℚ
  mouseX : ℚ
  mouseY : ℚ
deriving Repr, DecidableEq

/-- The state right after initializeCursor runs: all closure variables
start at 0 and no expando property has been assigned yet. -/
def initCursorState : CursorState :=
  { currentX := 0, currentY := 0, targetX := 0, targetY := 0
    elemTargetX := none, elemTargetY := none, mouseX := 0, mouseY := 0 }

/-- handleMouseMove(e): writes e.clientX and e.clientY into
STATE.mousePosition and assigns the targetX and targetY properties on
the DOM element found by document.querySelector(".cursor").  It never
touches the closure variables of initializeCursor. -/
def handleMouseMove (ex ey : ℚ) (s : CursorState) : CursorState :=
  { s with mouseX := ex, mouseY := ey
           elemTargetX := some ex, elemTargetY := some ey }

/-- updateCursor: one animation frame of the cursor follower.  It reads
the closure variables targetX and targetY and moves currentX and
currentY a fraction followSpeed of the way toward them. -/
def updateCursor (s : CursorState) : CursorState :=
  { s with currentX := lerp s.currentX s.targetX followSpeed
           currentY := lerp s.currentY s.targetY followSpeed }

/-- One axis of the cursor interpolation: the rendered coordinate after
n frames, starting from c with a fixed target t (the update is
current = lerp(current, target, followSpeed)). -/
def cursorIter (c t : ℚ) : ℕ → ℚ
  | 0 => c
  | n + 1 => lerp (cursorIter c t n) t followSpeed

/-- A particle of initializeParticles: position, velocity, radius and
opacity, all set at creation. -/
structure Particle where
  x : ℚ
  y : ℚ
  vx : ℚ
  vy : ℚ
  radius : ℚ
  opacity : ℚ
deriving Repr, DecidableEq

/-- One per-frame update of a single particle inside animate: the
position advances by the velocity, then each velocity component is
negated when the updated coordinate is at or beyond the boundary on
that axis (x <= 0 or x >= canvas.width, and likewise for y).  The
position itself is not clamped. -/
def particleStep (w h : ℚ) (p : Particle) : Particle :=
  let x := p.x + p.vx
  let y := p.y + p.vy
  { x := x, y := y
    vx := if x ≤ 0 ∨ x ≥ w then -p.vx else p.vx
    vy := if y ≤ 0 ∨ y ≥ h then -p.vy else p.vy
    radius := p.radius, opacity := p.opacity }

/-- n successive frame advances of one particle. -/
def particleIter (w h : ℚ) : ℕ → Particle → Particle
  | 0, p => p
  | n + 1, p => particleIter w h n (particleStep w h p)

/-- Squared Euclidean distance between two particles, i.e.
dx * dx + dy * dy as computed in the connection loop before the square
root is taken. -/
def dist2 (p q : Particle) : ℚ :=
  (p.x - q.x) * (p.x - q.x) + (p.y - q.y) * (p.y - q.y)

/-- Whether the animate loop strokes a segment from p to q: the code
tests sqrt(dx * dx + dy * dy) < 100, which for nonnegative radicand is
equivalent to dx * dx + dy * dy < 100 * 100. -/
def connectionDrawn (p q : Particle) : Bool :=
  decide (dist2 p q < connectionDistance * connectionDistance)

/-- Stroke opacity of a connection segment at distance d:
0.1 * (1 - distance / 100). -/
def lineOpacity (d : ℚ) : ℚ :=
  1 / 10 * (1 - d / 100)

/-- Number of stroke calls issued for connection segments in one frame:
for each particle the code iterates over the whole particle array
(itself included) and strokes one segment per other particle whose
distance is below the threshold. -/
def linesDrawn (ps : List Particle) : ℕ :=
  (ps.map (fun p => (ps.filter (fun q => connectionDrawn p q)).length)).sum

/-- Theme state: STATE.currentTheme together with the persisted
localStorage slot for the key "theme". -/
structure ThemeState where
  current : String
  persisted : Option String
deriving Repr, DecidableEq

/-- The initial value of STATE.currentTheme:
localStorage.getItem("theme") || "light".  getItem returns null when
the key is absent; both null and the empty string are falsy in the
source expression, so they fall back to "light"; any other stored
string is taken as is. -/
def initTheme (stored : Option String) : String :=
  match stored with
  | none => "light"
  | some s => if s = "" then "light" else s

/-- The whole theme state at page load: in-memory value from initTheme,
persisted slot unchanged. -/
def initThemeState (stored : Option String) : ThemeState :=
  { current := initTheme stored, persisted := stored }

/-- toggleTheme: flips STATE.currentTheme ("light" goes to "dark",
anything else goes to "light") and writes the new value to the
persisted slot via localStorage.setItem. -/
def toggleTheme (st : ThemeState) : ThemeState :=
  let t := if st.current = "light" then "dark" else "light"
  { current := t, persisted := some t }

/-- A character admitted by the character class of the email regular
expression: anything that is neither whitespace nor the at sign. -/
def isEmailChar (c : Char) : Bool :=
  !c.isWhitespace && !(c == '@')

/-- Decision procedure for the regular expression used by
validateField.  Since the local part may not contain
the at sign, the at sign consumed by the match is necessarily the first
one in the string; after it, the remainder must consist of admissible
characters and contain a dot that is neither its first nor its last
character (the parts before and after that dot are the two
one-or-more groups). -/
def emailMatch (cs : List Char) : Bool :=
  match cs.dropWhile (fun c => c != '@') with
  | [] => false
  | _ :: R =>
      !(cs.takeWhile (fun c => c != '@')).isEmpty &&
      (cs.takeWhile (fun c => c != '@')).all isEmailChar &&
      R.all isEmailChar &&
      ((R.drop 1).dropLast).contains '.'

/-- The shape the email regular expression describes, as a predicate:
the string splits as local ++ "@" ++ A ++ "." ++ B with all three parts
nonempty and made of admissible characters. -/
def emailShape (cs : List Char) : Prop :=
  ∃ L A B : List Char,
    cs = L ++ '@' :: (A ++ '.' :: B) ∧
    L ≠ [] ∧ A ≠ [] ∧ B ≠ [] ∧
    (∀ c ∈ L, isEmailChar c = true) ∧
    (∀ c ∈ A, isEmailChar c = true) ∧
    (∀ c ∈ B, isEmailChar c = true)

/-- String.prototype.trim as used on field.value: strips whitespace
from both ends. -/
def jsTrim (cs : List Char) : List Char :=
  ((cs.dropWhile Char.isWhitespace).reverse.dropWhile Char.isWhitespace).reverse

/-- One form field as validateField sees it: its value as a character
list, whether it carries the required attribute, and whether its type
is email. -/
structure FieldInput where
  value : List Char
  required : Bool
  isEmail : Bool
deriving Repr, DecidableEq

/-- validateField: trims the value; a required field with an empty
trimmed value is invalid; an email field with a nonempty trimmed value
failing the regular expression is invalid; everything else is valid. -/
def validateField (f : FieldInput) : Bool :=
  let v := jsTrim f.value
  !(f.required && v.isEmpty) &&
  !(f.isEmail && !v.isEmpty && !(emailMatch v))

/-- The drawing surface created by createParticleCanvas, sized to the
hero container. -/
structure Canvas where
  width : ℚ
  height : ℚ
deriving Repr, DecidableEq

/-- The DOM facts the initialization guards consult: whether the hero
container and the cursor element exist, the hero dimensions, the
reduced-motion preference and the viewport width. -/
structure DomEnv where
  heroPresent : Bool
  heroWidth : ℚ
  heroHeight : ℚ
  cursorPresent : Bool
  reducedMotion : Bool
  innerWidth : ℚ
deriving Repr, DecidableEq

/-- The global STATE fields relevant across initialization. -/
structure AppState where
  currentTheme : String
  mouseX : ℚ
  mouseY : ℚ
  scrollY : ℚ
deriving Repr, DecidableEq

/-- createParticleCanvas: returns null when the hero container is
absent, otherwise a canvas sized to the container. -/
def createParticleCanvas (env : DomEnv) : Option Canvas :=
  if env.heroPresent then some { width := env.heroWidth, height := env.heroHeight }
  else none

/-- A started particle system: its canvas and particle array. -/
structure ParticleSystem where
  canvas : Canvas
  particles : List Particle

/-- initializeParticles: returns under reduced motion or a narrow
viewport; returns when createParticleCanvas yields null; otherwise
creates the particle array (mk stands for the randomized batch
creation) and starts the animation loop.  The returned Option is none
exactly when no animation loop was created; the global state is passed
through untouched. -/
def initializeParticles (env : DomEnv) (mk : Canvas → List Particle)
    (st : AppState) : AppState × Option ParticleSystem :=
  if env.reducedMotion || decide (env.innerWidth ≤ 768) then (st, none)
  else
    match createParticleCanvas env with
    | none => (st, none)
    | some c => (st, some { canvas := c, particles := mk c })

/-- initializeCursor: returns under reduced motion or a narrow
viewport; returns when the cursor element is absent; otherwise starts
the follower loop with all closure variables at 0. -/
def initializeCursor (env : DomEnv) (st : AppState) :
    AppState × Option CursorState :=
  if env.reducedMotion || decide (env.innerWidth ≤ 768) then (st, none)
  else if env.cursorPresent then (st, some initCursorState)
  else (st, none)

/-- One-axis invariant of the bounce step: the velocity is one of the
two signed speeds, the coordinate stays within the bounds inflated by
the speed, and whenever the coordinate is outside [0, w] the velocity
already points back inside. -/
def AxisInv (w s x v : ℚ) : Prop :=
  (v = s ∨ v = -s) ∧ -s ≤ x ∧ x ≤ w + s ∧ (x < 0 → v = s) ∧ (w < x → v = -s)

/-- Both-axis invariant for a particle. -/
def ParticleInv (w h sx sy : ℚ) (p : Particle) : Prop :=
  AxisInv w sx p.x p.vx ∧ AxisInv h sy p.y p.vy

/-! Projection lemmas for the per-frame particle update. -/

lemma particleStep_x (w h : ℚ) (p : Particle) : (particleStep w h p).x = p.x + p.vx := rfl

lemma particleStep_y (w h : ℚ) (p : Particle) : (particleStep w h p).y = p.y + p.vy := rfl

lemma particleStep_vx (w h : ℚ) (p : Particle) :
    (particleStep w h p).vx =
      if p.x + p.vx ≤ 0 ∨ p.x + p.vx ≥ w then -p.vx else p.vx := rfl

lemma particleStep_vy (w h : ℚ) (p : Particle) :
    (particleStep w h p).vy =
      if p.y + p.vy ≤ 0 ∨ p.y + p.vy ≥ h then -p.vy else p.vy := rfl

lemma particleStep_radius (w h : ℚ) (p : Particle) :
    (particleStep w h p).radius = p.radius := rfl

lemma particleStep_opacity (w h : ℚ) (p : Particle) :
    (particleStep w h p).opacity = p.opacity := rfl

lemma particleIter_succ (w h : ℚ) (n : ℕ) (p : Particle) :
    particleIter w h (n + 1) p = particleIter w h n (particleStep w h p) := rfl

lemma dist2_comm (p q : Particle) : dist2 p q = dist2 q p := by
  unfold dist2; ring

lemma connectionDrawn_self (p : Particle) : connectionDrawn p p = true := by
  simp only [connectionDrawn, dist2, connectionDistance, sub_self, mul_zero, zero_mul, add_zero,
    decide_eq_true_eq]
  norm_num

/-! Invariant preservation for the bounce step. -/

lemma axisInv_step (w s x v : ℚ) (hs : 0 ≤ s) (h : AxisInv w s x v) :
    AxisInv w s (x + v) (if x + v ≤ 0 ∨ x + v ≥ w then -v else v) := by
  obtain ⟨hv, hl, hr, hneg, hpos⟩ := h
  refine ⟨?_, ?_, ?_, ?_, ?_⟩
  · split_ifs with hc
    · rcases hv with rfl | rfl
      · exact Or.inr rfl
      · exact Or.inl (neg_neg s)
    · exact hv
  · rcases hv with rfl | rfl
    · linarith
    · by_cases hx : 0 ≤ x
      · linarith
      · have := hneg (lt_of_not_le hx)
        linarith
  · rcases hv with rfl | rfl
    · by_cases hx : x ≤ w
      · linarith
      · have := hpos (lt_of_not_le hx)
        linarith
    · linarith
  · intro hlt
    rw [if_pos (Or.inl (le_of_lt hlt))]
    rcases hv with rfl | rfl
    · exfalso; linarith
    · exact neg_neg s
  · intro hgt
    rw [if_pos (Or.inr (le_of_lt hgt))]
    rcases hv with rfl | rfl
    · rfl
    · exfalso; linarith

lemma particleInv_step (w h sx sy : ℚ) (hsx : 0 ≤ sx) (hsy : 0 ≤ sy) (p : Particle)
    (hp : ParticleInv w h sx sy p) : ParticleInv w h sx sy (particleStep w h p) := by
  obtain ⟨hx, hy⟩ := hp
  constructor
  · rw [particleStep_x, particleStep_vx]
    exact axisInv_step w sx p.x p.vx hsx hx
  · rw [particleStep_y, particleStep_vy]
    exact axisInv_step h sy p.y p.vy hsy hy

lemma particleInv_iter (w h sx sy : ℚ) (hsx : 0 ≤ sx) (hsy : 0 ≤ sy) (n : ℕ)
    (p : Particle) (hp : ParticleInv w h sx sy p) :
    ParticleInv w h sx sy (particleIter w h n p) := by
  induction n generalizing p with
  | zero => exact hp
  | succ n ih =>
    rw [particleIter_succ]
    exact ih (particleStep w h p) (particleInv_step w h sx sy hsx hsy p hp)

/-! Lemmas about the email matcher. -/

lemma mem_dropLast_iff (c : Char) (l : List Char) :
    c ∈ l.dropLast ↔ ∃ A B, l = A ++ c :: B ∧ B ≠ [] := by
  induction l with
  | nil => simp
  | cons x xs ih =>
    cases xs with
    | nil =>
      constructor
      · intro hmem
        simp [List.dropLast] at hmem
      · rintro ⟨A, B, hEq, hB⟩
        exfalso
        have hlen := congrArg List.length hEq
        simp [List.length_append] at hlen
        exact hB (List.length_eq_zero.mp (by omega))
    | cons y ys =>
      have hdl : (x :: y :: ys).dropLast = x :: (y :: ys).dropLast := rfl
      rw [hdl, List.mem_cons, ih]
      constructor
      · rintro (rfl | ⟨A, B, hEq, hB⟩)
        · exact ⟨[], y :: ys, rfl, List.cons_ne_nil y ys⟩
        · exact ⟨x :: A, B, by rw [hEq, List.cons_append], hB⟩
      · rintro ⟨A, B, hEq, hB⟩
        cases A with
        | nil =>
          simp only [List.nil_append, List.cons.injEq] at hEq
          exact Or.inl hEq.1.symm
        | cons a A' =>
          simp only [List.cons_append, List.cons.injEq] at hEq
          exact Or.inr ⟨A', B, hEq.2, hB⟩

lemma mem_middle_iff (c : Char) (R : List Char) :
    c ∈ (R.drop 1).dropLast ↔ ∃ A B, R = A ++ c :: B ∧ A ≠ [] ∧ B ≠ [] := by
  cases R with
  | nil =>
    constructor
    · intro hmem
      simp at hmem
    · rintro ⟨A, B, hEq, hA, hB⟩
      exact absurd hEq.symm (List.append_ne_nil_of_right_ne_nil A (List.cons_ne_nil c B))
  | cons r rest =>
    have hdr : (r :: rest).drop 1 = rest := rfl
    rw [hdr, mem_dropLast_iff]
    constructor
    · rintro ⟨A, B, hEq, hB⟩
      exact ⟨r :: A, B, by rw [hEq, List.cons_append], List.cons_ne_nil r A, hB⟩
    · rintro ⟨A, B, hEq, hA, hB⟩
      cases A with
      | nil => exact absurd rfl hA
      | cons a A' =>
        simp only [List.cons_append, List.cons.injEq] at hEq
        exact ⟨A', B, hEq.2, hB⟩

lemma takeWhile_dropWhile_all (p : Char → Bool) (L : List Char)
    (hL : ∀ c ∈ L, p c = true) (x : Char) (hx : p x = false) (t : List Char) :
    (L ++ x :: t).takeWhile p = L ∧ (L ++ x :: t).dropWhile p = x :: t := by
  induction L with
  | nil =>
    simp [List.takeWhile_cons, List.dropWhile_cons, hx]
  | cons a L' ih =>
    have ha : p a = true := hL a (List.mem_cons_self a L')
    have ih' := ih (fun c hc => hL c (List.mem_cons_of_mem a hc))
    simp [List.takeWhile_cons, List.dropWhile_cons, ha, ih'.1, ih'.2]

lemma dropWhile_at_head (l : List Char) (x : Char) (xs : List Char)
    (h : l.dropWhile (fun c => c != '@') = x :: xs) : x = '@' := by
  induction l with
  | nil => simp [List.dropWhile] at h
  | cons a l ih =>
    rw [List.dropWhile_cons] at h
    by_cases ha : a = '@'
    · subst ha
      simp only [bne_self_eq_false, Bool.false_eq_true, if_false] at h
      exact (List.cons.injEq _ _ _ _ ▸ h).1.symm
    · have ha' : (a != '@') = true := bne_iff_ne.mpr ha
      rw [ha'] at h
      simp only [if_true] at h
      exact ih h

lemma emailMatch_eq_nil (cs : List Char) (h : cs.dropWhile (fun c => c != '@') = []) :
    emailMatch cs = false := by
  unfold emailMatch
  rw [h]

lemma emailMatch_eq_cons (cs : List Char) (x : Char) (R : List Char)
    (h : cs.dropWhile (fun c => c != '@') = x :: R) :
    emailMatch cs =
      (!(cs.takeWhile (fun c => c != '@')).isEmpty &&
       (cs.takeWhile (fun c => c != '@')).all isEmailChar &&
       R.all isEmailChar && ((R.drop 1).dropLast).contains '.') := by
  unfold emailMatch
  rw [h]

/-- C1: the claim says the target used by the frame update equals the
coordinates of the most recent pointer-move event.  Evaluating the code
at a single pointer-move to (100, 200) from the freshly initialized
cursor shows the opposite: handleMouseMove records the coordinates only
as properties of the DOM element, the closure variables targetX and
targetY read by updateCursor stay 0, and the frame update interpolates
toward (0, 0) instead of (100, 200). -/
theorem C1_cursor_target_never_updated :
    (handleMouseMove 100 200 initCursorState).targetX = 0 ∧
    (handleMouseMove 100 200 initCursorState).targetY = 0 ∧
    (handleMouseMove 100 200 initCursorState).elemTargetX = some 100 ∧
    (handleMouseMove 100 200 initCursorState).elemTargetY = some 200 ∧
    (handleMouseMove 100 200 initCursorState).targetX ≠ 100 ∧
    (updateCursor (handleMouseMove 100 200 initCursorState)).currentX =
      lerp 0 0 followSpeed ∧
    (updateCursor (handleMouseMove 100 200 initCursorState)).currentX = 0 := by
  refine ⟨rfl, rfl, rfl, rfl, by norm_num [handleMouseMove, initCursorState], rfl,
    by norm_num [updateCursor, handleMouseMove, initCursorState, lerp]⟩

/-- C2 counterexample: a particle that starts inside the bounds
(x = 1 in [0, 100]) leaves them after one frame advance: with
vx = -2 the updated x is -1 < 0, because the code flips the velocity
but never clamps the position. -/
theorem C2_position_escapes_counterexample :
    0 ≤ (1 : ℚ) ∧ (1 : ℚ) ≤ 100 ∧ 0 ≤ (50 : ℚ) ∧ (50 : ℚ) ≤ 100 ∧
    (particleIter 100 100 1
      { x := 1, y := 50, vx := -2, vy := 0, radius := 1, opacity := 1 }).x < 0 := by
  norm_num [particleIter, particleStep]

/-- C2 amended: after any number of frame advances, a particle that
started inside [0, w] x [0, h] stays inside the inflated box
[-|vx|, w + |vx|] x [-|vy|, h + |vy|]; the position can overshoot the
surface bounds by at most one frame of velocity. -/
theorem C2_particle_inflated_bounds (w h : ℚ) (p : Particle)
    (hx0 : 0 ≤ p.x) (hxw : p.x ≤ w) (hy0 : 0 ≤ p.y) (hyh : p.y ≤ h) (n : ℕ) :
    -|p.vx| ≤ (particleIter w h n p).x ∧ (particleIter w h n p).x ≤ w + |p.vx| ∧
    -|p.vy| ≤ (particleIter w h n p).y ∧ (particleIter w h n p).y ≤ h + |p.vy| := by
  have hinv : ParticleInv w h |p.vx| |p.vy| p := by
    refine ⟨⟨?_, ?_, ?_, ?_, ?_⟩, ⟨?_, ?_, ?_, ?_, ?_⟩⟩
    · rcases abs_choice p.vx with h1 | h1
      · exact Or.inl h1.symm
      · exact Or.inr (by linarith)
    · linarith [abs_nonneg p.vx]
    · linarith [abs_nonneg p.vx]
    · intro hlt; exact absurd hlt (not_lt.mpr hx0)
    · intro hgt; exact absurd hgt (not_lt.mpr hxw)
    · rcases abs_choice p.vy with h1 | h1
      · exact Or.inl h1.symm
      · exact Or.inr (by linarith)
    · linarith [abs_nonneg p.vy]
    · linarith [abs_nonneg p.vy]
    · intro hlt; exact absurd hlt (not_lt.mpr hy0)
    · intro hgt; exact absurd hgt (not_lt.mpr hyh)
  obtain ⟨⟨_, hxl, hxr, _, _⟩, ⟨_, hyl, hyr, _, _⟩⟩ :=
    particleInv_iter w h |p.vx| |p.vy| (abs_nonneg _) (abs_nonneg _) n p hinv
  exact ⟨hxl, hxr, hyl, hyr⟩

/-- C2 witness: the inflated-bounds theorem applied to a concrete
particle and five frames. -/
theorem C2_particle_inflated_bounds_witness :
    (0 ≤ ({ x := 50, y := 50, vx := 2, vy := -3, radius := 1, opacity := 1 } : Particle).x ∧
     ({ x := 50, y := 50, vx := 2, vy := -3, radius := 1, opacity := 1 } : Particle).x ≤ 100 ∧
     0 ≤ ({ x := 50, y := 50, vx := 2, vy := -3, radius := 1, opacity := 1 } : Particle).y ∧
     ({ x := 50, y := 50, vx := 2, vy := -3, radius := 1, opacity := 1 } : Particle).y ≤ 100) ∧
    (-|({ x := 50, y := 50, vx := 2, vy := -3, radius := 1, opacity := 1 } : Particle).vx| ≤
       (particleIter 100 100 5
         { x := 50, y := 50, vx := 2, vy := -3, radius := 1, opacity := 1 }).x ∧
     (particleIter 100 100 5
       { x := 50, y := 50, vx := 2, vy := -3, radius := 1, opacity := 1 }).x ≤
       100 + |({ x := 50, y := 50, vx := 2, vy := -3, radius := 1, opacity := 1 } : Particle).vx| ∧
     -|({ x := 50, y := 50, vx := 2, vy := -3, radius := 1, opacity := 1 } : Particle).vy| ≤
       (particleIter 100 100 5
         { x := 50, y := 50, vx := 2, vy := -3, radius := 1, opacity := 1 }).y ∧
     (particleIter 100 100 5
       { x := 50, y := 50, vx := 2, vy := -3, radius := 1, opacity := 1 }).y ≤
       100 + |({ x := 50, y := 50, vx := 2, vy := -3, radius := 1, opacity := 1 } : Particle).vy|) :=
  ⟨⟨by norm_num, by norm_num, by norm_num, by norm_num⟩,
   C2_particle_inflated_bounds 100 100
     { x := 50, y := 50, vx := 2, vy := -3, radius := 1, opacity := 1 }
     (by norm_num) (by norm_num) (by norm_num) (by norm_num) 5⟩

/-- C3 counterexample: with two particles 30 units apart (within the 50
units the scenario allows at start and within the 100-unit threshold),
one frame issues 4 connection strokes, not exactly one: each particle
strokes a zero-length segment to itself and the pair segment is stroked
once in each direction. -/
theorem C3_four_strokes_counterexample :
    dist2 { x := 0, y := 0, vx := 0, vy := 0, radius := 1, opacity := 1 }
          { x := 30, y := 0, vx := 0, vy := 0, radius := 1, opacity := 1 } < 50 * 50 ∧
    linesDrawn [{ x := 0, y := 0, vx := 0, vy := 0, radius := 1, opacity := 1 },
                { x := 30, y := 0, vx := 0, vy := 0, radius := 1, opacity := 1 }] = 4 ∧
    linesDrawn [{ x := 0, y := 0, vx := 0, vy := 0, radius := 1, opacity := 1 },
                { x := 30, y := 0, vx := 0, vy := 0, radius := 1, opacity := 1 }] ≠ 1 := by
  norm_num [dist2, linesDrawn, connectionDrawn, connectionDistance, List.filter]

/-- C3 amended: on a frame where the two particles of a 2-particle
field are strictly within 100 units of each other, exactly 4 connection
strokes are issued (the segment joining the two distinct particles once
in each direction, plus one zero-length self segment per particle);
once the distance is at or beyond 100 units only the 2 self segments
remain and no segment joins the two distinct particles. -/
theorem C3_two_particle_strokes (p q : Particle) :
    (dist2 p q < connectionDistance * connectionDistance → linesDrawn [p, q] = 4) ∧
    (connectionDistance * connectionDistance ≤ dist2 p q → linesDrawn [p, q] = 2) := by
  constructor
  · intro hlt
    have h1 : connectionDrawn p q = true := by
      simp [connectionDrawn, hlt]
    have h2 : connectionDrawn q p = true := by
      simp [connectionDrawn, dist2_comm q p, hlt]
    simp [linesDrawn, List.filter, h1, h2, connectionDrawn_self]
  · intro hge
    have h1 : connectionDrawn p q = false := by
      simp [connectionDrawn]; exact hge
    have h2 : connectionDrawn q p = false := by
      simp [connectionDrawn, dist2_comm q p]; exact hge
    simp [linesDrawn, List.filter, h1, h2, connectionDrawn_self]

/-- C3 witness: the stroke-count theorem applied to two concrete
particles 60 units apart. -/
theorem C3_two_particle_strokes_witness :
    dist2 { x := 0, y := 0, vx := 0, vy := 0, radius := 1, opacity := 1 }
          { x := 60, y := 0, vx := 0, vy := 0, radius := 1, opacity := 1 } <
      connectionDistance * connectionDistance ∧
    linesDrawn [{ x := 0, y := 0, vx := 0, vy := 0, radius := 1, opacity := 1 },
                { x := 60, y := 0, vx := 0, vy := 0, radius := 1, opacity := 1 }] = 4 :=
  ⟨by norm_num [dist2, connectionDistance],
   (C3_two_particle_strokes
      { x := 0, y := 0, vx := 0, vy := 0, radius := 1, opacity := 1 }
      { x := 60, y := 0, vx := 0, vy := 0, radius := 1, opacity := 1 }).1
     (by norm_num [dist2, connectionDistance])⟩

/-- C4: in each per-frame update with a nonzero velocity component, the
component is negated if and only if the coordinate after that frame
advance is at or beyond the corresponding boundary (at or below 0, or
at or beyond the surface extent on that axis). -/
theorem C4_velocity_flip_iff (w h : ℚ) (p : Particle) :
    (p.vx ≠ 0 →
      ((particleStep w h p).vx = -p.vx ↔ p.x + p.vx ≤ 0 ∨ p.x + p.vx ≥ w)) ∧
    (p.vy ≠ 0 →
      ((particleStep w h p).vy = -p.vy ↔ p.y + p.vy ≤ 0 ∨ p.y + p.vy ≥ h)) := by
  constructor
  · intro hv
    rw [particleStep_vx]
    split_ifs with hc
    · exact iff_of_true rfl hc
    · exact iff_of_false (fun heq => hv (by linarith)) hc
  · intro hv
    rw [particleStep_vy]
    split_ifs with hc
    · exact iff_of_true rfl hc
    · exact iff_of_false (fun heq => hv (by linarith)) hc

/-- C4 witness: the flip criterion applied to a concrete particle that
reaches the right edge. -/
theorem C4_velocity_flip_iff_witness :
    ((3 : ℚ) ≠ 0) ∧
    ((particleStep 100 100
        { x := 98, y := 50, vx := 3, vy := 0, radius := 1, opacity := 1 }).vx = -3 ↔
      (98 : ℚ) + 3 ≤ 0 ∨ (98 : ℚ) + 3 ≥ 100) :=
  ⟨by norm_num,
   (C4_velocity_flip_iff 100 100
      { x := 98, y := 50, vx := 3, vy := 0, radius := 1, opacity := 1 }).1
     (by norm_num)⟩

/-- C5: for particles whose Euclidean distance is d (d nonnegative with
d * d equal to the squared distance the code computes), a connection is
stroked exactly when d < 100, and the stroke opacity
0.1 * (1 - d / 100) is strictly decreasing in the distance. -/
theorem C5_connection_opacity (p q : Particle) (d : ℚ)
    (hd : 0 ≤ d) (hdd : d * d = dist2 p q) :
    (connectionDrawn p q = true ↔ d < 100) ∧
    (∀ d1 d2 : ℚ, 0 ≤ d1 → d1 < d2 → d2 < 100 → lineOpacity d2 < lineOpacity d1) := by
  constructor
  · simp only [connectionDrawn, connectionDistance, decide_eq_true_eq, ← hdd]
    constructor
    · intro h
      nlinarith
    · intro h
      nlinarith
  · intro d1 d2 h1 h12 h2
    unfold lineOpacity
    linarith

/-- C5 witness: the opacity theorem applied to two concrete particles
at distance 50 (a 30-40-50 triangle). -/
theorem C5_connection_opacity_witness :
    (0 : ℚ) ≤ 50 ∧
    (50 : ℚ) * 50 = dist2 { x := 0, y := 0, vx := 0, vy := 0, radius := 1, opacity := 1 }
                          { x := 30, y := 40, vx := 0, vy := 0, radius := 1, opacity := 1 } ∧
    (connectionDrawn { x := 0, y := 0, vx := 0, vy := 0, radius := 1, opacity := 1 }
                     { x := 30, y := 40, vx := 0, vy := 0, radius := 1, opacity := 1 } = true ↔
      (50 : ℚ) < 100) :=
  ⟨by norm_num, by norm_num [dist2],
   (C5_connection_opacity
      { x := 0, y := 0, vx := 0, vy := 0, radius := 1, opacity := 1 }
      { x := 30, y := 40, vx := 0, vy := 0, radius := 1, opacity := 1 } 50
      (by norm_num) (by norm_num [dist2])).1⟩

/-- C6: the absolute values of the velocity components, the radius and
the opacity of a particle are invariant under any number of frame
advances: the update only adds velocity to position and at most negates
a velocity component. -/
theorem C6_attributes_fixed (w h : ℚ) (p : Particle) (n : ℕ) :
    |(particleIter w h n p).vx| = |p.vx| ∧
    |(particleIter w h n p).vy| = |p.vy| ∧
    (particleIter w h n p).radius = p.radius ∧
    (particleIter w h n p).opacity = p.opacity := by
  induction n generalizing p with
  | zero => exact ⟨rfl, rfl, rfl, rfl⟩
  | succ n ih =>
    obtain ⟨h1, h2, h3, h4⟩ := ih (particleStep w h p)
    rw [particleIter_succ]
    refine ⟨?_, ?_, ?_, ?_⟩
    · rw [h1, particleStep_vx]; split_ifs <;> simp [abs_neg]
    · rw [h2, particleStep_vy]; split_ifs <;> simp [abs_neg]
    · rw [h3, particleStep_radius]
    · rw [h4, particleStep_opacity]

lemma lerp_gap (x t : ℚ) : t - lerp x t followSpeed = (t - x) * (17 / 20) := by
  unfold lerp followSpeed; ring

/-- C7: with a fixed target t, each interpolation frame multiplies the
remaining distance by 17/20, so the distance from the rendered position
to the target is (17/20) ^ n times the initial gap, is non-increasing,
is strictly decreasing while the position differs from the target, and
eventually falls below every positive bound. -/
theorem C7_cursor_convergence (c t : ℚ) :
    (∀ n, |t - cursorIter c t (n + 1)| = 17 / 20 * |t - cursorIter c t n|) ∧
    (∀ n, |t - cursorIter c t n| = (17 / 20) ^ n * |t - c|) ∧
    (∀ n, |t - cursorIter c t (n + 1)| ≤ |t - cursorIter c t n|) ∧
    (∀ n, cursorIter c t n ≠ t → |t - cursorIter c t (n + 1)| < |t - cursorIter c t n|) ∧
    (∀ ε : ℚ, 0 < ε → ∃ N, ∀ n, N ≤ n → |t - cursorIter c t n| < ε) := by
  have hstep : ∀ n, |t - cursorIter c t (n + 1)| = 17 / 20 * |t - cursorIter c t n| := by
    intro n
    have hg : t - cursorIter c t (n + 1) = (t - cursorIter c t n) * (17 / 20) :=
      lerp_gap (cursorIter c t n) t
    rw [hg, abs_mul, abs_of_nonneg (by norm_num : (0:ℚ) ≤ 17 / 20), mul_comm]
  have hpow : ∀ n, |t - cursorIter c t n| = (17 / 20) ^ n * |t - c| := by
    intro n
    induction n with
    | zero => simp [cursorIter]
    | succ n ih => rw [hstep n, ih, pow_succ]; ring
  refine ⟨hstep, hpow, ?_, ?_, ?_⟩
  · intro n
    rw [hstep n]
    nlinarith [abs_nonneg (t - cursorIter c t n)]
  · intro n hne
    have hpos : 0 < |t - cursorIter c t n| :=
      abs_pos.mpr (sub_ne_zero_of_ne (Ne.symm hne))
    rw [hstep n]
    linarith
  · intro ε hε
    by_cases h0 : |t - c| = 0
    · exact ⟨0, fun n _ => by rw [hpow n, h0, mul_zero]; exact hε⟩
    · have hpos : 0 < |t - c| := lt_of_le_of_ne (abs_nonneg _) (Ne.symm h0)
      obtain ⟨N, hN⟩ :=
        exists_pow_lt_of_lt_one (div_pos hε hpos) (by norm_num : (17:ℚ) / 20 < 1)
      refine ⟨N, fun n hn => ?_⟩
      rw [hpow n]
      calc (17 / 20 : ℚ) ^ n * |t - c| ≤ (17 / 20) ^ N * |t - c| := by
            apply mul_le_mul_of_nonneg_right _ (abs_nonneg _)
            exact pow_le_pow_of_le_one (by norm_num) (by norm_num) hn
        _ < ε / |t - c| * |t - c| := mul_lt_mul_of_pos_right hN hpos
        _ = ε := div_mul_cancel₀ ε (ne_of_gt hpos)

/-- C7 witness: the strict-decrease clause applied to start 0 and
target 20 on the first frame. -/
theorem C7_cursor_convergence_witness :
    cursorIter 0 20 0 ≠ 20 ∧ |20 - cursorIter 0 20 (0 + 1)| < |20 - cursorIter 0 20 0| :=
  ⟨by norm_num [cursorIter],
   (C7_cursor_convergence 0 20).2.2.2.1 0 (by norm_num [cursorIter])⟩

/-- C8: a required field whose value trims to empty is rejected; the
email test accepts exactly the strings of the shape
local at-sign domain dot tld (each part nonempty, free of whitespace
and further at signs); in particular the string a at b.co is accepted
and the string a at b is rejected. -/
theorem C8_field_validation :
    (∀ f : FieldInput, f.required = true → jsTrim f.value = [] → validateField f = false) ∧
    (∀ cs : List Char, emailMatch cs = true ↔ emailShape cs) ∧
    validateField { value := "a@b.co".toList, required := true, isEmail := true } = true ∧
    validateField { value := "a@b".toList, required := true, isEmail := true } = false := by
  refine ⟨?_, ?_, by decide, by decide⟩
  · intro f hreq htrim
    simp [validateField, hreq, htrim]
  · intro cs
    constructor
    · intro hm
      rcases hsplit : cs.dropWhile (fun c => c != '@') with _ | ⟨x, R⟩
      · rw [emailMatch_eq_nil cs hsplit] at hm
        exact absurd hm (by simp)
      · rw [emailMatch_eq_cons cs x R hsplit] at hm
        simp only [Bool.and_eq_true, Bool.not_eq_true'] at hm
        obtain ⟨⟨⟨hne, hLall⟩, hRall⟩, hdot⟩ := hm
        have hx : x = '@' := dropWhile_at_head cs x R hsplit
        subst hx
        have hcseq : cs = cs.takeWhile (fun c => c != '@') ++ '@' :: R := by
          conv_lhs => rw [← List.takeWhile_append_dropWhile (p := fun c => c != '@') (l := cs)]
          rw [hsplit]
        have hdot' : ('.' : Char) ∈ (R.drop 1).dropLast := by
          simpa using hdot
        obtain ⟨A, B, hR, hA, hB⟩ := (mem_middle_iff '.' R).mp hdot'
        refine ⟨cs.takeWhile (fun c => c != '@'), A, B, ?_, ?_, hA, hB, ?_, ?_, ?_⟩
        · rw [← hR]
          exact hcseq
        · intro h0
          rw [h0] at hne
          simp at hne
        · exact fun c hc => List.all_eq_true.mp hLall c hc
        · intro c hc
          refine List.all_eq_true.mp hRall c ?_
          rw [hR]
          exact List.mem_append_left _ hc
        · intro c hc
          refine List.all_eq_true.mp hRall c ?_
          rw [hR]
          exact List.mem_append_right _ (List.mem_cons_of_mem _ hc)
    · rintro ⟨L, A, B, rfl, hL, hA, hB, hLc, hAc, hBc⟩
      have hLp : ∀ c ∈ L, (fun c => c != '@') c = true := by
        intro c hc
        have h1 := hLc c hc
        simp only [isEmailChar, Bool.and_eq_true, Bool.not_eq_true'] at h1
        exact bne_iff_ne.mpr (fun h2 => by simp [h2] at h1)
      have hAt : ((fun c => c != '@') '@') = false := by decide
      obtain ⟨htw, hdw⟩ := takeWhile_dropWhile_all _ L hLp '@' hAt (A ++ '.' :: B)
      rw [emailMatch_eq_cons _ '@' (A ++ '.' :: B) hdw]
      rw [htw]
      simp only [Bool.and_eq_true, Bool.not_eq_true']
      refine ⟨⟨⟨?_, ?_⟩, ?_⟩, ?_⟩
      · cases L with
        | nil => exact absurd rfl hL
        | cons a L' => rfl
      · exact List.all_eq_true.mpr hLc
      · refine List.all_eq_true.mpr ?_
        intro c hc
        rcases List.mem_append.mp hc with hc1 | hc2
        · exact hAc c hc1
        · rcases List.mem_cons.mp hc2 with rfl | hc3
          · decide
          · exact hBc c hc3
      · have hmid : ('.' : Char) ∈ (((A ++ '.' :: B).drop 1).dropLast) :=
          (mem_middle_iff '.' (A ++ '.' :: B)).mpr ⟨A, B, rfl, hA, hB⟩
        simpa using hmid

/-- C8 witness: the required-field clause applied to an empty required
field. -/
theorem C8_field_validation_witness :
    ({ value := [], required := true, isEmail := false } : FieldInput).required = true ∧
    jsTrim ({ value := [], required := true, isEmail := false } : FieldInput).value = [] ∧
    validateField { value := [], required := true, isEmail := false } = false :=
  ⟨rfl, rfl, C8_field_validation.1 { value := [], required := true, isEmail := false } rfl rfl⟩

/-- C9: when the hero container is absent, createParticleCanvas yields
nothing and initializeParticles returns without starting an animation
loop, leaving the global state unchanged; when the cursor element is
absent, initializeCursor likewise returns without starting, leaving the
global state unchanged.  All three functions are total, so no error is
surfaced. -/
theorem C9_missing_anchor (env : DomEnv) (mk : Canvas → List Particle) (st : AppState) :
    (env.heroPresent = false → createParticleCanvas env = none) ∧
    (env.heroPresent = false → initializeParticles env mk st = (st, none)) ∧
    (env.cursorPresent = false → initializeCursor env st = (st, none)) := by
  refine ⟨fun hh => ?_, fun hh => ?_, fun hc => ?_⟩
  · simp [createParticleCanvas, hh]
  · simp [initializeParticles, createParticleCanvas, hh]
  · simp [initializeCursor, hc]

/-- C9 witness: the missing-container theorem applied to a concrete
environment with no hero element. -/
theorem C9_missing_anchor_witness :
    ({ heroPresent := false, heroWidth := 0, heroHeight := 0, cursorPresent := false,
       reducedMotion := false, innerWidth := 1000 } : DomEnv).heroPresent = false ∧
    initializeParticles
      { heroPresent := false, heroWidth := 0, heroHeight := 0, cursorPresent := false,
        reducedMotion := false, innerWidth := 1000 } (fun _ => [])
      { currentTheme := "light", mouseX := 0, mouseY := 0, scrollY := 0 } =
      ({ currentTheme := "light", mouseX := 0, mouseY := 0, scrollY := 0 }, none) :=
  ⟨rfl,
   (C9_missing_anchor
      { heroPresent := false, heroWidth := 0, heroHeight := 0, cursorPresent := false,
        reducedMotion := false, innerWidth := 1000 } (fun _ => [])
      { currentTheme := "light", mouseX := 0, mouseY := 0, scrollY := 0 }).2.1 rfl⟩

/-- C10 counterexample: when the persisted slot holds the string
purple, the in-memory theme at load is purple, which is neither light
nor dark, and applying toggleTheme twice yields dark, not the original
value. -/
theorem C10_arbitrary_stored_counterexample :
    initTheme (some "purple") = "purple" ∧
    initTheme (some "purple") ≠ "light" ∧
    initTheme (some "purple") ≠ "dark" ∧
    (toggleTheme (toggleTheme (initThemeState (some "purple")))).current ≠ "purple" := by
  refine ⟨rfl, by decide, by decide, by decide⟩

/-- C10 amended: when the current theme is light or dark, toggleTheme
maps light to dark and dark to light, persists the new value, and
applying it twice restores the original in-memory theme and leaves the
persisted slot holding that original value; and when the persisted slot
at load is absent, empty, light or dark, the initial theme is light or
dark. -/
theorem C10_toggle_swap_involution (st : ThemeState)
    (h : st.current = "light" ∨ st.current = "dark") :
    ((toggleTheme st).current = "light" ∨ (toggleTheme st).current = "dark") ∧
    (st.current = "light" → (toggleTheme st).current = "dark") ∧
    (st.current = "dark" → (toggleTheme st).current = "light") ∧
    (toggleTheme st).persisted = some (toggleTheme st).current ∧
    (toggleTheme (toggleTheme st)).current = st.current ∧
    (toggleTheme (toggleTheme st)).persisted = some st.current ∧
    (∀ stored : Option String,
      (stored = none ∨ stored = some "" ∨ stored = some "light" ∨ stored = some "dark") →
      initTheme stored = "light" ∨ initTheme stored = "dark") := by
  have hinit : ∀ stored : Option String,
      (stored = none ∨ stored = some "" ∨ stored = some "light" ∨ stored = some "dark") →
      initTheme stored = "light" ∨ initTheme stored = "dark" := by
    rintro stored (rfl | rfl | rfl | rfl) <;> simp [initTheme]
  rcases h with h | h <;>
    exact ⟨by simp [toggleTheme, h], by simp [toggleTheme, h], by simp [toggleTheme, h],
           by simp [toggleTheme, h], by simp [toggleTheme, h], by simp [toggleTheme, h], hinit⟩

/-- C10 witness: the toggle theorem applied to the light theme with an
empty persisted slot. -/
theorem C10_toggle_swap_involution_witness :
    (({ current := "light", persisted := none } : ThemeState).current = "light" ∨
     ({ current := "light", persisted := none } : ThemeState).current = "dark") ∧
    (toggleTheme (toggleTheme { current := "light", persisted := none })).current = "light" :=
  ⟨Or.inl rfl,
   (C10_toggle_swap_involution { current := "light", persisted := none } (Or.inl rfl)).2.2.2.2.1⟩
